import Mathlib

set_option maxRecDepth 8000

namespace PwnedChecker

/-- 2^32, the modulus for 32-bit words in the SHA-1 computation. -/
def M32 : Nat := 4294967296

/-- Rotate a 32-bit word (a Nat below 2^32) left by n bits. -/
def rotl (n x : Nat) : Nat := ((x <<< n) % M32) ||| (x >>> (32 - n))

/-- Big-endian byte rendering of a 32-bit word. -/
def wordBytes (w : Nat) : List Nat :=
  [(w >>> 24) % 256, (w >>> 16) % 256, (w >>> 8) % 256, w % 256]

/-- Group a byte list into big-endian 32-bit words, four bytes at a time. -/
def bytesToWords : List Nat → List Nat
  | b0 :: b1 :: b2 :: b3 :: rest =>
      ((b0 <<< 24) ||| ((b1 <<< 16) ||| ((b2 <<< 8) ||| b3))) :: bytesToWords rest
  | _ => []

/-- Extend the 16 message-schedule words to 80, keeping the list reversed
(most recent word first), as in the SHA-1 message schedule. -/
def extendWRev : Nat → List Nat → List Nat
  | 0, ws => ws
  | f + 1, ws =>
      extendWRev f
        (rotl 1 (((ws.getD 2 0) ^^^ (ws.getD 7 0)) ^^^ ((ws.getD 13 0) ^^^ (ws.getD 15 0))) :: ws)

/-- The SHA-1 working state: five 32-bit words. -/
abbrev St := Nat × Nat × Nat × Nat × Nat

/-- Round function and round constant of SHA-1, selected by the round index. -/
def fk (i b c d : Nat) : Nat × Nat :=
  if i < 20 then ((b &&& c) ||| ((b ^^^ 4294967295) &&& d), 1518500249)
  else if i < 40 then ((b ^^^ c) ^^^ d, 1859775393)
  else if i < 60 then (((b &&& c) ||| (b &&& d)) ||| (c &&& d), 2400959708)
  else ((b ^^^ c) ^^^ d, 3395469782)

/-- The 80 SHA-1 rounds, folding the message-schedule words into the state. -/
def rounds : List Nat → Nat → St → St
  | [], _, st => st
  | w :: ws, i, (a, b, c, d, e) =>
      rounds ws (i + 1)
        (((((rotl 5 a + (fk i b c d).1) + e) + (fk i b c d).2) + w) % M32, a, rotl 30 b, c, d)

/-- Compress one 64-byte block into the running SHA-1 state. -/
def compress (st : St) (block : List Nat) : St :=
  let r := rounds ((extendWRev 64 (bytesToWords block).reverse).reverse) 0 st
  ((st.1 + r.1) % M32, (st.2.1 + r.2.1) % M32, (st.2.2.1 + r.2.2.1) % M32,
   (st.2.2.2.1 + r.2.2.2.1) % M32, (st.2.2.2.2 + r.2.2.2.2) % M32)

/-- Process the padded message 64 bytes at a time; the fuel argument is the
byte count, which bounds the number of blocks. -/
def processBlocks : Nat → List Nat → St → St
  | 0, _, st => st
  | _, [], st => st
  | f + 1, bytes, st => processBlocks f (bytes.drop 64) (compress st (bytes.take 64))

/-- The eight big-endian bytes of the 64-bit message bit length. -/
def lenBytes (n : Nat) : List Nat :=
  [(n >>> 56) % 256, (n >>> 48) % 256, (n >>> 40) % 256, (n >>> 32) % 256,
   (n >>> 24) % 256, (n >>> 16) % 256, (n >>> 8) % 256, n % 256]

/-- SHA-1 padding: a 0x80 byte, zero bytes up to 56 mod 64, then the bit length. -/
def padMessage (msg : List Nat) : List Nat :=
  msg ++ 128 :: (List.replicate ((119 - msg.length % 64) % 64) 0 ++ lenBytes (msg.length * 8))

/-- The SHA-1 initialisation vector. -/
def sha1Init : St := (1732584193, 4023233417, 2562383102, 271733878, 3285377520)

/-- Render the final state as the 20-byte digest. -/
def stBytes (st : St) : List Nat :=
  wordBytes st.1 ++ (wordBytes st.2.1 ++ (wordBytes st.2.2.1 ++
    (wordBytes st.2.2.2.1 ++ wordBytes st.2.2.2.2)))

/-- SHA-1 of a byte list, as the 20-byte digest. -/
def sha1Bytes (msg : List Nat) : List Nat :=
  stBytes (processBlocks (padMessage msg).length (padMessage msg) sha1Init)

/-- The sixteen lowercase hexadecimal digit characters. -/
def hexDigitChars : List Char := "0123456789abcdef".data

/-- The lowercase hexadecimal digit for a nibble. -/
def hexChar (n : Nat) : Char := hexDigitChars.getD n '0'

/-- Two lowercase hexadecimal digits for one byte. -/
def byteHex (b : Nat) : List Char := [hexChar (b >>> 4), hexChar (b % 16)]

/-- Lowercase hexadecimal rendering of a byte list. -/
def hexChars (bytes : List Nat) : List Char := bytes.flatMap byteHex

/-- UTF-8 encoding of a single character, as Python's str.encode produces. -/
def utf8Char (c : Char) : List Nat :=
  if c.toNat < 128 then [c.toNat]
  else if c.toNat < 2048 then [192 + c.toNat / 64, 128 + c.toNat % 64]
  else if c.toNat < 65536 then
    [224 + c.toNat / 4096, 128 + (c.toNat / 64) % 64, 128 + c.toNat % 64]
  else
    [240 + c.toNat / 262144, 128 + (c.toNat / 4096) % 64, 128 + (c.toNat / 64) % 64,
     128 + c.toNat % 64]

/-- UTF-8 bytes of a string, modelling Python's str.encode. -/
def strBytes (s : String) : List Nat := s.data.flatMap utf8Char

/-- The lowercase hexadecimal SHA-1 digest of a string, as a character list;
this models hashlib.sha1(...).hexdigest() on the UTF-8 bytes. -/
def hexdigest (pw_in : String) : List Char := hexChars (sha1Bytes (strBytes pw_in))

/-- Embeds hash_password (src/app/main.py lines 24-29): hash the password with
SHA-1, render the digest as lowercase hex, and split it at index 5. -/
def hash_password (pw_in : String) : String × String :=
  (String.mk ((hexdigest pw_in).take 5), String.mk ((hexdigest pw_in).drop 5))

example : sha1Bytes [] = [0xda, 0x39, 0xa3, 0xee, 0x5e, 0x6b, 0x4b, 0x0d, 0x32, 0x55,
    0xbf, 0xef, 0x95, 0x60, 0x18, 0x90, 0xaf, 0xd8, 0x07, 0x09] := by decide

example : String.mk (hexdigest "password") = "5baa61e4c9b93f3f0682250b6cf8331b7ee68fd8" := by
  decide

/-- Splitting a string at every colon, modelling Python's str.split(":"):
the accumulator holds the current field reversed. -/
def splitColonAux : List Char → List Char → List String
  | [], acc => [String.mk acc.reverse]
  | c :: cs, acc =>
      if c = ':' then String.mk acc.reverse :: splitColonAux cs []
      else splitColonAux cs (c :: acc)

/-- Python's line.split(":"): split on every colon character. -/
def pySplitColon (s : String) : List String := splitColonAux s.data []

/-- Embeds the response parsing of get_pwned_hashes (src/app/main.py lines
31-38): keep each non-empty line, split on every colon. The network fetch
itself is abstracted into the list of decoded response lines. -/
def parse_lines (lines : List String) : List (List String) :=
  (lines.filter (fun l => !(l == ""))).map pySplitColon

/-- Embeds get_pwned_hashes with the HTTP GET abstracted as an oracle from
the request parameter to the decoded response lines. -/
def get_pwned_hashes (fetch : String → List String) (api_param : String) : List (List String) :=
  parse_lines (fetch api_param)

/-- The URL the code requests, templated on the api parameter
(src/app/main.py line 34). -/
def request_url (api_param : String) : String :=
  "https://api.pwnedpasswords.com/range/" ++ api_param

/-- Python's str.upper() restricted to its ASCII behaviour, which is all the
code applies it to (hexadecimal digest characters). -/
def pyUpper (s : String) : String := String.mk (s.data.map Char.toUpper)

/-- Result of check (src/app/main.py lines 40-52): the code returns either
the tuple (True, identified_hash, occurrences) or False. -/
inductive CheckResult where
  | found (identified_hash : String) (occurrences : String)
  | notFound
  deriving DecidableEq, Repr

/-- The matching loop of check (src/app/main.py lines 47-52): scan the
candidates, compare the uppercased local suffix with the candidate's field 0,
and on a match return field 1 as the occurrences. Indexing a field that does
not exist is a Python IndexError, modelled as none. -/
def checkLoop (pre suf : String) : List (List String) → Option CheckResult
  | [] => some CheckResult.notFound
  | ph :: rest =>
      match ph[0]? with
      | none => none
      | some ph0 =>
          if pyUpper suf = ph0 then
            match ph[1]? with
            | none => none
            | some ph1 => some (CheckResult.found (pre ++ suf) ph1)
          else checkLoop pre suf rest

/-- Embeds check (src/app/main.py lines 40-52), with the network abstracted
as an oracle from the request parameter to the decoded response lines. -/
def check (fetch : String → List String) (password : String) : Option CheckResult :=
  checkLoop (hash_password password).1 (hash_password password).2
    (get_pwned_hashes fetch (hash_password password).1)

/-- The string argument check passes to get_pwned_hashes: the first element
of the split hash (src/app/main.py line 45). -/
def api_request (password : String) : String := (hash_password password).1

/-- Python's string.ascii_letters: the lowercase then the uppercase letters. -/
def ascii_letters : List Char :=
  "abcdefghijklmnopqrstuvwxyzABCDEFGHIJKLMNOPQRSTUVWXYZ".data

/-- Python's string.digits. -/
def ascii_digits : List Char := "0123456789".data

/-- Python's string.punctuation: the 32 ASCII punctuation characters, i.e.
the printable ASCII codes 33-47, 58-64, 91-96 and 123-126. Built from the
character codes because several of those characters are string-literal
delimiters. -/
def punctuation : List Char :=
  (List.range 15).map (fun i => Char.ofNat (33 + i)) ++
    ((List.range 7).map (fun i => Char.ofNat (58 + i)) ++
      ((List.range 6).map (fun i => Char.ofNat (91 + i)) ++
        (List.range 4).map (fun i => Char.ofNat (123 + i))))

/-- The generator alphabet of src/app/main.py line 86:
string.ascii_letters + string.digits + string.punctuation. -/
def all_characters : List Char := ascii_letters ++ (ascii_digits ++ punctuation)

/-- Swap two positions of a list; positions outside the list leave it
unchanged (the code only ever swaps in-range positions). -/
def listSwap (xs : List Char) (i j : Nat) : List Char :=
  if hi : i < xs.length then
    if hj : j < xs.length then
      (xs.set i (xs.get ⟨j, hj⟩)).set j (xs.get ⟨i, hi⟩)
    else xs
  else xs

/-- The Fisher-Yates loop of Python's random.shuffle: for i from n-1 down
to 1, draw j uniformly in 0..i and swap positions i and j. The random draws
are supplied as a stream indexed by i and reduced modulo i+1. -/
def shuffleLoop (rand : Nat → Nat) : Nat → List Char → List Char
  | 0, xs => xs
  | i + 1, xs => shuffleLoop rand i (listSwap xs (i + 1) (rand (i + 1) % (i + 2)))

/-- Embeds secrets.SystemRandom().shuffle(password) (src/app/main.py line 88):
Fisher-Yates over the whole list, randomness supplied as a stream. -/
def pyShuffle (rand : Nat → Nat) (xs : List Char) : List Char :=
  shuffleLoop rand (xs.length - 1) xs

/-- Embeds generate_and_print_password (src/app/main.py lines 84-90), with
printing modelled as returning the generated string. choiceRand models the
successive secrets.choice draws (an in-range index is choiceRand k reduced
modulo the alphabet size); shuffleRand models the shuffle's draws. The
length parameter is a Python int, so it may be negative. -/
def generate_and_print_password (choiceRand shuffleRand : Nat → Nat)
    (length : Int) : String :=
  String.mk (pyShuffle shuffleRand
    ((List.range length.toNat).map
      (fun k => all_characters.getD (choiceRand k % all_characters.length) '0')))

/-- The default length of generate_and_print_password (src/app/main.py
line 84). -/
def default_length : Int := 25

/-- Whether a check outcome is the Found case (the tuple starting with True
in the code). -/
def isFound : Option CheckResult → Bool
  | some (CheckResult.found _ _) => true
  | _ => false

/-- Modelled from the spec's words, for comparison with the code: the spec
types the occurrences field as an integer, so this tests whether a string is
a decimal numeral denoting a non-negative integer. The code itself performs
no such conversion or validation. -/
def spec_integer_string (s : String) : Bool :=
  !s.data.isEmpty && s.data.all (fun c => decide ('0' ≤ c ∧ c ≤ '9'))

/-- Join a list of fields with colons; the left inverse of pySplitColon. -/
def joinColon : List String → String
  | [] => ""
  | [s] => s
  | s :: rest => s ++ ":" ++ joinColon rest

/-- Whether a character lies in the ASCII punctuation range of Python's
string.punctuation (codes 33-47, 58-64, 91-96, 123-126). -/
def isAsciiPunct (c : Char) : Bool :=
  (33 ≤ c.toNat && c.toNat ≤ 47) || ((58 ≤ c.toNat && c.toNat ≤ 64) ||
    ((91 ≤ c.toNat && c.toNat ≤ 96) || (123 ≤ c.toNat && c.toNat ≤ 126)))

/-! Helper lemmas about the digest rendering. -/

theorem mk_append (a b : List Char) : String.mk a ++ String.mk b = String.mk (a ++ b) := rfl

theorem string_eta (s : String) : String.mk s.data = s := rfl

theorem stBytes_length (st : St) : (stBytes st).length = 20 := by
  simp [stBytes, wordBytes]

theorem hexChars_length (l : List Nat) : (hexChars l).length = 2 * l.length := by
  induction l with
  | nil => rfl
  | cons b bs ih =>
      simp only [hexChars, List.flatMap_cons, List.length_append, List.length_cons] at *
      simp [byteHex, ih]
      omega

theorem hexdigest_length (p : String) : (hexdigest p).length = 40 := by
  rw [hexdigest, hexChars_length, sha1Bytes, stBytes_length]

theorem hexChar_mem (n : Nat) : hexChar n ∈ hexDigitChars := by
  by_cases h : n < 16
  · have hall : ∀ i, i < 16 → hexDigitChars.getD i '0' ∈ hexDigitChars := by decide
    exact hall n h
  · rw [hexChar, List.getD_eq_default]
    · decide
    · have : hexDigitChars.length = 16 := by decide
      omega

theorem hexChars_subset {c : Char} {l : List Nat} (h : c ∈ hexChars l) : c ∈ hexDigitChars := by
  rw [hexChars, List.mem_flatMap] at h
  obtain ⟨b, -, hc⟩ := h
  rw [byteHex] at hc
  rcases List.mem_cons.1 hc with rfl | hc'
  · exact hexChar_mem _
  · rcases List.mem_cons.1 hc' with rfl | hc''
    · exact hexChar_mem _
    · simp at hc''

/-! Helper lemmas about the matching loop. -/

theorem checkLoop_found_eq (pre suf : String) (cands : List (List String))
    (h o : String) (hc : checkLoop pre suf cands = some (CheckResult.found h o)) :
    h = pre ++ suf := by
  induction cands with
  | nil => simp [checkLoop] at hc
  | cons ph rest ih =>
      rcases hph0 : ph[0]? with - | ph0
      · simp [checkLoop, hph0] at hc
      · by_cases hcond : pyUpper suf = ph0
        · rcases hph1 : ph[1]? with - | ph1
          · simp [checkLoop, hph0, hcond, hph1] at hc
          · simp [checkLoop, hph0, hcond, hph1] at hc
            exact hc.1.symm
        · simp only [checkLoop, hph0, if_neg hcond] at hc
          exact ih hc

theorem checkLoop_skip (pre suf : String) (q : List String) (rest : List (List String))
    (q0 : String) (h0 : q[0]? = some q0) (hne : q0 ≠ pyUpper suf) :
    checkLoop pre suf (q :: rest) = checkLoop pre suf rest := by
  simp only [checkLoop, h0, if_neg (Ne.symm hne)]

theorem checkLoop_hit (pre suf : String) (ph : List String) (rest : List (List String))
    (cnt : String) (h0 : ph[0]? = some (pyUpper suf)) (h1 : ph[1]? = some cnt) :
    checkLoop pre suf (ph :: rest) = some (CheckResult.found (pre ++ suf) cnt) := by
  simp [checkLoop, h0, h1]

/-! Helper lemmas about the colon splitting of response lines. -/

theorem splitColonAux_no_colon (cs : List Char) :
    ∀ acc : List Char, (∀ c ∈ cs, c ≠ ':') →
      splitColonAux cs acc = [String.mk (acc.reverse ++ cs)] := by
  induction cs with
  | nil => intro acc _; simp [splitColonAux]
  | cons c cs ih =>
      intro acc h
      have hc : c ≠ ':' := h c (List.mem_cons_self c cs)
      rw [splitColonAux, if_neg hc, ih (c :: acc) (fun d hd => h d (List.mem_cons_of_mem c hd))]
      congr 1
      simp

theorem splitColonAux_ne_nil (cs : List Char) : ∀ acc : List Char, splitColonAux cs acc ≠ [] := by
  induction cs with
  | nil => intro acc; simp [splitColonAux]
  | cons c cs ih =>
      intro acc
      rw [splitColonAux]
      split
      · simp
      · exact ih (c :: acc)

theorem joinColon_cons (s : String) (l : List String) (h : l ≠ []) :
    joinColon (s :: l) = s ++ ":" ++ joinColon l := by
  cases l with
  | nil => exact absurd rfl h
  | cons a t => rfl

theorem joinColon_splitColonAux (cs : List Char) :
    ∀ acc : List Char, joinColon (splitColonAux cs acc) = String.mk (acc.reverse ++ cs) := by
  induction cs with
  | nil => intro acc; simp [splitColonAux, joinColon]
  | cons c cs ih =>
      intro acc
      rw [splitColonAux]
      by_cases hc : c = ':'
      · rw [if_pos hc, joinColon_cons _ _ (splitColonAux_ne_nil cs []), ih []]
        subst hc
        rw [show (":" : String) = String.mk [':'] from rfl, mk_append, mk_append]
        congr 1
        simp
      · rw [if_neg hc, ih (c :: acc)]
        congr 1
        simp

theorem splitColonAux_fields (cs : List Char) :
    ∀ acc : List Char, (∀ c ∈ acc, c ≠ ':') →
      ∀ f ∈ splitColonAux cs acc, ∀ c ∈ f.data, c ≠ ':' := by
  induction cs with
  | nil =>
      intro acc hacc f hf c hcf
      simp only [splitColonAux, List.mem_singleton] at hf
      subst hf
      exact hacc c (List.mem_reverse.1 hcf)
  | cons d cs ih =>
      intro acc hacc f hf
      rw [splitColonAux] at hf
      by_cases hd : d = ':'
      · rw [if_pos hd] at hf
        rcases List.mem_cons.1 hf with rfl | hf'
        · intro c hcf
          exact hacc c (List.mem_reverse.1 hcf)
        · exact ih [] (by simp) f hf'
      · rw [if_neg hd] at hf
        refine ih (d :: acc) ?_ f hf
        intro c hc
        rcases List.mem_cons.1 hc with rfl | h'
        · exact hd
        · exact hacc c h'

/-! Helper lemmas about the Fisher-Yates shuffle. -/

theorem listSwap_length (xs : List Char) (i j : Nat) :
    (listSwap xs i j).length = xs.length := by
  rw [listSwap]
  split
  · split
    · simp [List.length_set]
    · rfl
  · rfl

theorem listSwap_subset {c : Char} (xs : List Char) (i j : Nat)
    (h : c ∈ listSwap xs i j) : c ∈ xs := by
  rw [listSwap] at h
  split at h
  · split at h
    · rcases List.mem_or_eq_of_mem_set h with h' | rfl
      · rcases List.mem_or_eq_of_mem_set h' with h'' | rfl
        · exact h''
        · exact List.get_mem xs _ _
      · exact List.get_mem xs _ _
    · exact h
  · exact h

theorem shuffleLoop_length (rand : Nat → Nat) (n : Nat) :
    ∀ xs : List Char, (shuffleLoop rand n xs).length = xs.length := by
  induction n with
  | zero => intro xs; rfl
  | succ i ih =>
      intro xs
      rw [shuffleLoop, ih, listSwap_length]

theorem shuffleLoop_subset {c : Char} (rand : Nat → Nat) (n : Nat) :
    ∀ xs : List Char, c ∈ shuffleLoop rand n xs → c ∈ xs := by
  induction n with
  | zero => intro xs h; exact h
  | succ i ih =>
      intro xs h
      rw [shuffleLoop] at h
      exact listSwap_subset _ _ _ (ih _ h)

theorem all_characters_getD_mem (n : Nat) :
    all_characters.getD (n % all_characters.length) '0' ∈ all_characters := by
  have hall : ∀ i, i < 94 → all_characters.getD i '0' ∈ all_characters := by decide
  have hlen : all_characters.length = 94 := by decide
  refine hall _ ?_
  rw [hlen]
  exact Nat.mod_lt _ (by norm_num)

/-! The claims. -/

/-- C1, counterexample: the code uppercases only the local suffix, so a
candidate whose suffix is exactly the (lowercase) local suffix of the
password "password" is case-insensitively equal to it, yet check returns
the not-found result instead of a Found result. -/
theorem C1_counterexample :
    (hash_password "password").2 = "1e4c9b93f3f0682250b6cf8331b7ee68fd8" ∧
    pyUpper "1e4c9b93f3f0682250b6cf8331b7ee68fd8" =
      pyUpper (hash_password "password").2 ∧
    check (fun _ => ["1e4c9b93f3f0682250b6cf8331b7ee68fd8:3861493"]) "password" =
      some CheckResult.notFound := by
  refine ⟨by decide, by decide, by decide⟩

/-- C1, amended: over candidates that each have at least two fields, the
matching loop of check yields a Found result if and only if some
candidate's first field is literally equal to the uppercased local suffix;
only the local side is uppercased, so a candidate suffix whose letters are
not already uppercase never matches. -/
theorem C1_found_iff (pre suf : String) (cands : List (List String))
    (hlen : ∀ ph ∈ cands, 2 ≤ ph.length) :
    isFound (checkLoop pre suf cands) = true ↔
      ∃ ph ∈ cands, ph[0]? = some (pyUpper suf) := by
  induction cands with
  | nil => simp [checkLoop, isFound]
  | cons ph rest ih =>
      have hph := hlen ph (List.mem_cons_self ph rest)
      cases ph with
      | nil => simp at hph
      | cons a t =>
          cases t with
          | nil => simp at hph
          | cons b t' =>
              by_cases hcond : pyUpper suf = a
              · rw [checkLoop_hit pre suf _ rest b (by simp [hcond]) (by simp)]
                simp only [isFound, true_iff]
                exact ⟨a :: b :: t', List.mem_cons_self _ _, by simp [hcond]⟩
              · rw [checkLoop_skip pre suf _ rest a (by simp) (Ne.symm hcond)]
                rw [ih (fun q hq => hlen q (List.mem_cons_of_mem _ hq))]
                constructor
                · intro ⟨q, hq, hq0⟩
                  exact ⟨q, List.mem_cons_of_mem _ hq, hq0⟩
                · intro ⟨q, hq, hq0⟩
                  rcases List.mem_cons.1 hq with rfl | hq'
                  · simp at hq0
                    exact absurd hq0.symm hcond
                  · exact ⟨q, hq', hq0⟩

/-- C1, witness for the amended theorem at a concrete suffix and candidate
list. -/
theorem C1_found_iff_witness :
    isFound (checkLoop "5baa6" "1e4c" [["ABCD", "7"], ["1E4C", "3"]]) = true ↔
      ∃ ph ∈ [["ABCD", "7"], ["1E4C", "3"]], ph[0]? = some (pyUpper "1e4c") :=
  C1_found_iff "5baa6" "1e4c" [["ABCD", "7"], ["1E4C", "3"]] (by decide)

/-- C2: hash_password returns a 5-character prefix and a 35-character
suffix whose concatenation is the 40-character lowercase hexadecimal SHA-1
digest of the UTF-8 bytes of the password; determinism is the final
(definitionally true) conjunct, since the embedding is a pure function of
its input, as is the Python code. -/
theorem C2_hash_password_spec (p : String) :
    (hash_password p).1.length = 5 ∧
    (hash_password p).2.length = 35 ∧
    (hash_password p).1 ++ (hash_password p).2 = String.mk (hexdigest p) ∧
    (hexdigest p).length = 40 ∧
    hash_password p = hash_password p := by
  have h40 := hexdigest_length p
  refine ⟨?_, ?_, ?_, h40, rfl⟩
  · show ((hexdigest p).take 5).length = 5
    rw [List.length_take, h40]
    rfl
  · show ((hexdigest p).drop 5).length = 35
    rw [List.length_drop, h40]
  · show String.mk ((hexdigest p).take 5) ++ String.mk ((hexdigest p).drop 5) = _
    rw [mk_append, List.take_append_drop]

/-- C3, counterexample: a response body containing a non-empty line with no
colon does not fail; the parsing of get_pwned_hashes returns an ordinary
candidate list that silently retains the malformed line as a single-field
candidate together with the fields of the remaining lines, and check runs
to completion on such a body. -/
theorem C3_counterexample :
    parse_lines ["ABC", "DEF:2"] = [["ABC"], ["DEF", "2"]] ∧
    check (fun _ => ["ABC"]) "password" = some CheckResult.notFound := by
  refine ⟨by decide, by decide⟩

/-- C3, amended: a non-empty response line with no colon character is not an
error: get_pwned_hashes keeps it as the single-field candidate consisting of
the whole line, and the result is still built from all the other lines. -/
theorem C3_malformed_line_kept (line : String) (body : List String)
    (hne : line ≠ "") (hnc : ∀ c ∈ line.data, c ≠ ':') :
    pySplitColon line = [line] ∧ (line ∈ body → [line] ∈ parse_lines body) := by
  have hsplit : pySplitColon line = [line] := by
    rw [pySplitColon, splitColonAux_no_colon line.data [] hnc]
    simp [string_eta]
  refine ⟨hsplit, ?_⟩
  intro hmem
  have hf : line ∈ body.filter (fun l => !(l == "")) :=
    List.mem_filter.2 ⟨hmem, by simp [hne]⟩
  have := List.mem_map_of_mem pySplitColon hf
  rw [hsplit] at this
  exact this

/-- C3, witness for the amended theorem at a concrete malformed line. -/
theorem C3_malformed_line_kept_witness :
    pySplitColon "ABC" = ["ABC"] ∧ ("ABC" ∈ ["ABC", "DEF:2"] → ["ABC"] ∈ parse_lines ["ABC", "DEF:2"]) :=
  C3_malformed_line_kept "ABC" ["ABC", "DEF:2"] (by decide) (by decide)

/-- C4, counterexample: for lengths 0 and -1 the generator does not fail; it
returns the empty string (Python's range over a non-positive bound produces
no draws). -/
theorem C4_counterexample :
    generate_and_print_password (fun _ => 0) (fun _ => 0) 0 = "" ∧
    generate_and_print_password (fun _ => 0) (fun _ => 0) (-1) = "" := by
  refine ⟨by decide, by decide⟩

/-- C4, amended: for every length below 1 the generator returns the empty
string, whatever the random streams; no error is raised. -/
theorem C4_nonpositive_empty (choiceRand shuffleRand : Nat → Nat) (len : Int)
    (h : len < 1) :
    generate_and_print_password choiceRand shuffleRand len = "" := by
  have h0 : len.toNat = 0 := Int.toNat_of_nonpos (by omega)
  rw [generate_and_print_password, h0]
  rfl

/-- C4, witness for the amended theorem at the concrete length -5. -/
theorem C4_nonpositive_empty_witness :
    generate_and_print_password (fun k => k + 3) (fun i => 2 * i) (-5) = "" :=
  C4_nonpositive_empty (fun k => k + 3) (fun i => 2 * i) (-5) (by decide)

theorem mk_length (l : List Char) : (String.mk l).length = l.length := rfl

/-- C5: for every length at least 1 and all random streams, the generator
returns a string of exactly that many characters, each drawn from
all_characters; all_characters has 94 symbols and consists only of
uppercase letters, lowercase letters, digits and ASCII punctuation. -/
theorem C5_generate_spec (choiceRand shuffleRand : Nat → Nat) (len : Int)
    (h : 1 ≤ len) :
    (generate_and_print_password choiceRand shuffleRand len).length = len.toNat ∧
    ((len.toNat : Int) = len) ∧
    (∀ c ∈ (generate_and_print_password choiceRand shuffleRand len).data,
      c ∈ all_characters) ∧
    all_characters.length = 94 ∧
    (∀ c ∈ all_characters,
      (c.isUpper || (c.isLower || (c.isDigit || isAsciiPunct c))) = true) := by
  refine ⟨?_, Int.toNat_of_nonneg (by omega), ?_, by decide, by decide⟩
  · rw [generate_and_print_password, mk_length, pyShuffle, shuffleLoop_length,
      List.length_map, List.length_range]
  · intro c hc
    have hc1 : c ∈ pyShuffle shuffleRand ((List.range len.toNat).map
        (fun k => all_characters.getD (choiceRand k % all_characters.length) '0')) := hc
    rw [pyShuffle] at hc1
    have hc2 := shuffleLoop_subset shuffleRand _ _ hc1
    rw [List.mem_map] at hc2
    obtain ⟨k, -, rfl⟩ := hc2
    exact all_characters_getD_mem _

/-- C5, witness at the concrete length 10 and concrete streams. -/
theorem C5_generate_spec_witness :
    (generate_and_print_password (fun k => 3 * k) (fun i => i + 1) 10).length =
      (10 : Int).toNat ∧
    (((10 : Int).toNat : Int) = 10) ∧
    (∀ c ∈ (generate_and_print_password (fun k => 3 * k) (fun i => i + 1) 10).data,
      c ∈ all_characters) ∧
    all_characters.length = 94 ∧
    (∀ c ∈ all_characters,
      (c.isUpper || (c.isLower || (c.isDigit || isAsciiPunct c))) = true) :=
  C5_generate_spec (fun k => 3 * k) (fun i => i + 1) 10 (by decide)

/-- C6, counterexample: a matching candidate line whose text after the colon
is empty yields a Found result whose occurrences value is the empty string,
which denotes no integer: the code returns the candidate's second field
verbatim as a string and performs no integer conversion. -/
theorem C6_counterexample :
    check (fun _ => ["1E4C9B93F3F0682250B6CF8331B7EE68FD8:"]) "password" =
      some (CheckResult.found "5baa61e4c9b93f3f0682250b6cf8331b7ee68fd8" "") ∧
    spec_integer_string "" = false := by
  refine ⟨by decide, by decide⟩

/-- C6, amended: when the matching loop finds a match, the first matching
candidate in sequence order wins, and the result is the Found case carrying
the prefix concatenated with the suffix in the case produced by the splitter
together with that candidate's second field verbatim as a string. -/
theorem C6_first_match (pre suf : String) (xs ys : List (List String))
    (ph : List String) (cnt : String)
    (hmiss : ∀ q ∈ xs, ∃ q0, q[0]? = some q0 ∧ q0 ≠ pyUpper suf)
    (h0 : ph[0]? = some (pyUpper suf)) (h1 : ph[1]? = some cnt) :
    checkLoop pre suf (xs ++ ph :: ys) = some (CheckResult.found (pre ++ suf) cnt) := by
  induction xs with
  | nil => exact checkLoop_hit pre suf ph ys cnt h0 h1
  | cons q xs' ih =>
      obtain ⟨q0, hq0, hqne⟩ := hmiss q (List.mem_cons_self q xs')
      rw [List.cons_append, checkLoop_skip pre suf q _ q0 hq0 hqne]
      exact ih (fun r hr => hmiss r (List.mem_cons_of_mem q hr))

/-- C6, witness: the first matching candidate wins over a later candidate
with the same suffix. -/
theorem C6_first_match_witness :
    checkLoop "5baa6" "ab" ([["XY", "1"]] ++ ["AB", "7"] :: [["AB", "9"]]) =
      some (CheckResult.found ("5baa6" ++ "ab") "7") :=
  C6_first_match "5baa6" "ab" [["XY", "1"]] [["AB", "9"]] ["AB", "7"] "7"
    (fun q hq => by
      have hq' := List.mem_singleton.1 hq
      subst hq'
      exact ⟨"XY", by decide, by decide⟩)
    (by decide) (by decide)

/-- C7, counterexample: the spec's quoted digest drops the final character
and uses the wrong case. The SHA-1 hex digest of "password" is the
40-character string 5baa61e4c9b93f3f0682250b6cf8331b7ee68fd8, so the
splitter does not yield the claimed prefix 5BAA6 or the claimed 34-character
suffix 1E4C9B93F3F0682250B6CF8331B7EE68FD, and a check against the claimed
response line returns the not-found result rather than the claimed Found
value. -/
theorem C7_counterexample :
    (hash_password "password").1 ≠ "5BAA6" ∧
    (hash_password "password").2 ≠ "1E4C9B93F3F0682250B6CF8331B7EE68FD" ∧
    check (fun _ => ["1E4C9B93F3F0682250B6CF8331B7EE68FD:3861493"]) "password" ≠
      some (CheckResult.found "5BAA61E4C9B93F3F0682250B6CF8331B7EE68FD" "3861493") ∧
    check (fun _ => ["1E4C9B93F3F0682250B6CF8331B7EE68FD:3861493"]) "password" =
      some CheckResult.notFound := by
  refine ⟨by decide, by decide, by decide, by decide⟩

/-- C7, amended: for "password" the splitter yields the lowercase prefix
5baa6 and 35-character suffix 1e4c9b93f3f0682250b6cf8331b7ee68fd8, and a
check against a response containing the uppercase line
1E4C9B93F3F0682250B6CF8331B7EE68FD8:3861493 returns the Found case with the
lowercase full hash and the occurrence count 3861493 as a string. -/
theorem C7_end_to_end :
    hash_password "password" = ("5baa6", "1e4c9b93f3f0682250b6cf8331b7ee68fd8") ∧
    check (fun _ => ["1E4C9B93F3F0682250B6CF8331B7EE68FD8:3861493"]) "password" =
      some (CheckResult.found "5baa61e4c9b93f3f0682250b6cf8331b7ee68fd8" "3861493") := by
  refine ⟨by decide, by decide⟩

/-- C8, counterexample: a line with two colons is split on every colon into
three fields, not two; the count field at index 1 is the text between the
first and second colons, not everything after the first colon. -/
theorem C8_counterexample :
    parse_lines ["A:B:C"] = [["A", "B", "C"]] ∧
    parse_lines ["A:B:C"] ≠ [["A", "B:C"]] ∧
    (["A", "B", "C"] : List String)[1]? = some "B" := by
  refine ⟨by decide, by decide, by decide⟩

/-- C8, amended: the parser skips blank lines and splits each non-empty
line on every colon character into colon-free fields whose colon-joined
concatenation is the original line; no field is validated as an integer. -/
theorem C8_split_on_every_colon (s : String) (lines : List String) :
    joinColon (pySplitColon s) = s ∧
    (∀ f ∈ pySplitColon s, ∀ c ∈ f.data, c ≠ ':') ∧
    parse_lines ("" :: lines) = parse_lines lines ∧
    (s ≠ "" → parse_lines (s :: lines) = pySplitColon s :: parse_lines lines) := by
  refine ⟨?_, ?_, ?_, ?_⟩
  · rw [pySplitColon, joinColon_splitColonAux]
    simp [string_eta]
  · exact splitColonAux_fields s.data [] (by simp)
  · simp [parse_lines]
  · intro h
    simp [parse_lines, List.filter_cons, h]

/-- C8, witness for the amended theorem at a concrete two-colon line. -/
theorem C8_split_on_every_colon_witness :
    parse_lines ["A:B:C", "X"] = pySplitColon "A:B:C" :: parse_lines ["X"] :=
  (C8_split_on_every_colon "A:B:C" ["X"]).2.2.2 (by decide)

/-- C9: the argument check passes to the range lookup is exactly the first
5 characters of the digest, so two passwords whose digests agree on the
first 5 characters produce the identical request parameter and request URL,
and the outcome of check depends on the fetch oracle only through its value
at that 5-character parameter: the verification suffix is never
transmitted. -/
theorem C9_prefix_only (p1 p2 : String)
    (h : (hexdigest p1).take 5 = (hexdigest p2).take 5) :
    api_request p1 = api_request p2 ∧
    (api_request p1).length = 5 ∧
    request_url (api_request p1) = request_url (api_request p2) ∧
    (∀ fetch1 fetch2 : String → List String,
      fetch1 (api_request p1) = fetch2 (api_request p1) →
      check fetch1 p1 = check fetch2 p1) := by
  have heq : api_request p1 = api_request p2 := by
    show String.mk ((hexdigest p1).take 5) = String.mk ((hexdigest p2).take 5)
    rw [h]
  refine ⟨heq, ?_, by rw [heq], ?_⟩
  · show ((hexdigest p1).take 5).length = 5
    rw [List.length_take, hexdigest_length]
    rfl
  · intro fetch1 fetch2 hf
    show checkLoop (hash_password p1).1 (hash_password p1).2
        (get_pwned_hashes fetch1 (hash_password p1).1) =
      checkLoop (hash_password p1).1 (hash_password p1).2
        (get_pwned_hashes fetch2 (hash_password p1).1)
    rw [get_pwned_hashes, get_pwned_hashes]
    have hval : fetch1 (hash_password p1).1 = fetch2 (hash_password p1).1 := hf
    rw [hval]

/-- C9, witness: two fetch oracles that agree at the request parameter of
"password" give the same check outcome. -/
theorem C9_prefix_only_witness :
    check (fun _ => ["AB:1"]) "password" =
      check (fun s => if s = "5baa6" then ["AB:1"] else []) "password" :=
  (C9_prefix_only "password" "password" rfl).2.2.2 _ _ (by decide)

/-- C10: every character of both components of hash_password is a lowercase
hexadecimal digit, and the full hash carried in any Found result of check
consists only of lowercase hexadecimal digits. -/
theorem C10_lowercase_hex (p : String) :
    (∀ c ∈ (hash_password p).1.data, c ∈ hexDigitChars) ∧
    (∀ c ∈ (hash_password p).2.data, c ∈ hexDigitChars) ∧
    (∀ (fetch : String → List String) (h o : String),
      check fetch p = some (CheckResult.found h o) →
      ∀ c ∈ h.data, c ∈ hexDigitChars) := by
  have hpre : ∀ c ∈ (hash_password p).1.data, c ∈ hexDigitChars := by
    intro c hc
    have hc' : c ∈ (hexdigest p).take 5 := hc
    have hd : c ∈ hexChars (sha1Bytes (strBytes p)) := List.take_subset 5 _ hc'
    exact hexChars_subset hd
  have hsuf : ∀ c ∈ (hash_password p).2.data, c ∈ hexDigitChars := by
    intro c hc
    have hc' : c ∈ (hexdigest p).drop 5 := hc
    have hd : c ∈ hexChars (sha1Bytes (strBytes p)) := List.drop_subset 5 _ hc'
    exact hexChars_subset hd
  refine ⟨hpre, hsuf, ?_⟩
  intro fetch h o hcheck c hc
  have hh : h = (hash_password p).1 ++ (hash_password p).2 :=
    checkLoop_found_eq (hash_password p).1 (hash_password p).2
      (get_pwned_hashes fetch (hash_password p).1) h o hcheck
  subst hh
  have hc' : c ∈ (hash_password p).1.data ++ (hash_password p).2.data := hc
  rcases List.mem_append.1 hc' with h1 | h2
  · exact hpre c h1
  · exact hsuf c h2

/-- C10, witness: the first digest character of "password" is a lowercase
hexadecimal digit, obtained through the theorem. -/
theorem C10_lowercase_hex_witness : '5' ∈ hexDigitChars :=
  (C10_lowercase_hex "password").1 '5' (by decide)

end PwnedChecker

